import Mathlib

/-!
Verification of the lifetime-analysis core of the dyon repository
(`src/lifetime/node.rs`): the node-graph builder `convert_meta_data` and
the lifetime solver `Node::lifetime` / `Node::has_lifetime`.

The embedding translates `node.rs` directly.  Components of the repository
that `node.rs` uses but whose sources are not part of the verified tree
(`kind.rs`, `lt.rs` with `arg_lifetime` and the `Lifetime` ordering, the
`Type` module and the external type-subtree parser, `piston_meta`) are
modelled from the specification; each such definition carries a doc
comment starting with `Modelled from the spec:`.

Machine integers: the only one that matters is the `u16` grab level,
modelled as `Nat` with saturation at 65535 (the behaviour of the Rust
`as u16` cast for the values that reach it).  The `f64` payload of
numeric metadata events is modelled as `Rat`; the builder only compares
it against 1 and truncates it, operations that are exact on the rational
values exercised here.

Rust panics (index out of bounds, `unwrap` on an empty stack, the
solver's catch-all `panic!`) are modelled as an explicit `panicked`
result; the potentially non-terminating `Lt::Arg` chain walk and the
recursion into children are modelled with explicit fuel, `hang` standing
for a computation that did not finish.
-/

namespace Dyon

/-- Modelled from the spec: the closed enumeration of node kinds
(`kind.rs`, not in src/).  The variants are those listed in the spec's
data model and referenced by `node.rs`; `Type` and `RetType` are the
type-subtree markers.  `Type_` stands for the source's `Kind::Type`
(`Type` is a Lean keyword); `Fn` is the function-declaration kind that a
`Call` node's `declaration` points at. -/
inductive Kind
  | Start | End | Fn | Block | Expr | Add | Mul | Pow | Base | Exp
  | Val | Call | CallArg | CallClosure | Closure | Item
  | Norm | UnOp | Compare | If | Cond | TrueBlock
  | ElseIfCond | ElseIfBlock | ElseBlock | Assign | Left | Right
  | Object | KeyValue | Array | ArrayItem | ArrayFill | Fill | N
  | Return | ReturnVoid | Break | Continue | Go | For | ForN | Loop
  | Arg | Current | Sift | SumVec4 | ProdVec4 | Sum | Prod | Min | Max
  | Any | All | Vec4 | Vec4UnLoop | Swizzle | Link | LinkFor | LinkItem
  | Grab | TryExpr | Type_ | RetType
deriving DecidableEq, Repr

/-- Modelled from the spec: the argument-lifetime constraints `Lt`
(declared in the crate root, not in src/): `Default` (no constraint),
`Return` (return may borrow from this argument), `Arg k` (chained to
argument `k`). -/
inductive Lt
  | Default
  | Return
  | Arg (k : Nat)
deriving DecidableEq, Repr

/-- Modelled from the spec: the computed `Lifetime` value (`lt.rs`, not
in src/): `Local i` and `Current i` borrow from a declaration node,
`Argument i path` from argument `i`, `Return path` outlives the return. -/
inductive Lifetime
  | Local (i : Nat)
  | Current (i : Nat)
  | Argument (i : Nat) (path : List Nat)
  | Return (path : List Nat)
deriving DecidableEq, Repr

/-- Modelled from the spec: the assignment-operator tag (`ast.rs`, not in
src/). -/
inductive AssignOp
  | Assign | Set | Add | Sub | Mul | Div | Rem | Pow
deriving DecidableEq, Repr

/-- Modelled from the spec: the binary-operator tag (`ast.rs`, not in
src/). -/
inductive BinOp
  | Dot | Cross | Mul | Div | Rem | AndAlso
deriving DecidableEq, Repr

/-- Modelled from the spec: the types the builder assigns defensively
(the `Type` module is not in src/; only the variants `node.rs` mentions
are needed).  `anyTy` stands for `Type::Any`, `array` for
`Type::array()`, `object` for `Type::object()`. -/
inductive Ty
  | array | vec4 | object | f64 | link | bool | void | anyTy | text
  | secret (t : Ty)
  | option (t : Ty)
  | result (t : Ty)
deriving DecidableEq, Repr

/-- Modelled from the spec: a source range (`piston_meta`'s `Range`,
measured here in metadata-event units, which is how `convert_meta_data`
uses it). -/
structure Range where
  offset : Nat
  length : Nat
deriving DecidableEq, Repr

/-- The node record of `node.rs`.  `end_` stands for the source field
`end` and `tryf` for the source field `try` (both Lean keywords), and
`aliasN` for the source field `alias` (a Mathlib command keyword);
`lifetime` is the user-written annotation string of the source field of
the same name (the solver itself is `lifetimeF` below). -/
structure Node where
  kind : Kind
  aliasN : Option String := none
  names : List String := []
  ty : Option Ty := none
  mutable : Bool := false
  tryf : Bool := false
  grab_level : Nat := 0
  source : Range := ⟨0, 0⟩
  parent : Option Nat := none
  children : List Nat := []
  start : Nat := 0
  end_ : Nat := 0
  lifetime : Option String := none
  declaration : Option Nat := none
  op : Option AssignOp := none
  binops : List BinOp := []
  lts : List Lt := []
deriving DecidableEq, Repr

/-- Modelled from the spec: the argument-name table consulted by
`arg_lifetime` (`ArgNames`, not in src/): `ord` maps a declaration index
to the ordinal position among its function's arguments, `byName`
resolves a user-facing argument name to the target argument index. -/
structure ArgNames where
  ord : Nat → Nat
  byName : String → Option Nat

/-- `Node::name`: the first name, if any. -/
def Node.name (self : Node) : Option String :=
  self.names.head?

/-- `Node::item_ids`. -/
def Node.item_ids (self : Node) : Bool :=
  self.kind = Kind.Item && self.children.length > 0

/-- `Node::inner_type`. -/
def Node.inner_type (self : Node) (ty : Ty) : Ty :=
  if self.tryf then
    match ty with
    | Ty.option t => t
    | Ty.result t => t
    | x => x
  else ty

/-- `Node::has_lifetime`, the gate of the solver. -/
def Node.has_lifetime (self : Node) : Bool :=
  match self.kind with
  | .Pow | .Sum | .Prod | .SumVec4 | .Min | .Max | .Any | .All
  | .Vec4 | .Vec4UnLoop | .Swizzle
  | .Assign | .For | .ForN | .Link | .LinkFor
  | .Closure | .CallClosure | .Grab | .TryExpr | .Norm => false
  | .Add | .Mul | .Compare => self.children.length == 1
  | _ => true

/-- Modelled from the spec: `arg_lifetime` (`lt.rs`, not in src/).
Annotation "return" yields `Return [declaration]`; an annotation naming
another argument resolves through the table and yields
`Argument target [declaration]`; otherwise the argument's own ordinal
with an empty path. -/
def arg_lifetime (declaration : Nat) (arg : Node) (_nodes : List Node)
    (an : ArgNames) : Option Lifetime :=
  match arg.lifetime with
  | some l =>
    if l = "return" then some (Lifetime.Return [declaration])
    else
      match an.byName l with
      | some target => some (Lifetime.Argument target [declaration])
      | none => some (Lifetime.Argument (an.ord declaration) [])
  | none => some (Lifetime.Argument (an.ord declaration) [])

/-- Modelled from the spec: the implementation-defined total order on
`Lifetime` (`lt.rs`, not in src/).  The solver's fold (lines 268-270 of
`node.rs`) replaces the running value whenever it compares `<` the new
one, so the order is the reverse of the spec's lattice order: `Return`
compares least and `Local` greatest, which makes the most-local
(most restrictive) lifetime win the fold, as the spec's scenarios
require.  Within a variant the comparison is lexicographic. -/
def listLtNat : List Nat → List Nat → Bool
  | [], [] => false
  | [], _ :: _ => true
  | _ :: _, [] => false
  | a :: xs, b :: ys => decide (a < b) || (decide (a = b) && listLtNat xs ys)

/-- Modelled from the spec: strict comparison on `Lifetime`, see
`listLtNat`. -/
def Lifetime.lt : Lifetime → Lifetime → Bool
  | .Return a, .Return b => listLtNat a b
  | .Return _, _ => true
  | _, .Return _ => false
  | .Argument i a, .Argument j b =>
    decide (i < j) || (decide (i = j) && listLtNat a b)
  | .Argument _ _, _ => true
  | _, .Argument _ _ => false
  | .Current i, .Current j => decide (i < j)
  | .Current _, _ => true
  | _, .Current _ => false
  | .Local i, .Local j => decide (i < j)

/-- The spec's lattice order (non-strict): more-local lifetimes compare
less, `Local < Current < Argument < Return` across variants.  It is the
reverse of the implementation order `Lifetime.lt`. -/
def latticeLe (a b : Lifetime) : Bool :=
  a == b || Lifetime.lt b a

/-- One step of the solver's fold over contributing children
(`node.rs` lines 268-270): the running value is replaced when it
compares `<` the new lifetime. -/
def lifetimeMinStep (acc : Option Lifetime) (l : Lifetime) : Option Lifetime :=
  match acc with
  | none => some l
  | some m => if Lifetime.lt m l then some l else some m

/-- The solver's `min` fold over the list of contributing child
lifetimes ("Pick the smallest lifetime among children"). -/
def pickMin (ls : List Lifetime) : Option Lifetime :=
  ls.foldl lifetimeMinStep none

/-- Result of a solver computation: `ok` is the Rust return value,
`panicked` a Rust panic, `hang` a computation that did not finish
(either a genuine infinite loop or exhausted fuel). -/
inductive LRes (α : Type)
  | ok : α → LRes α
  | panicked : LRes α
  | hang : LRes α
deriving DecidableEq, Repr

/-- Result of one `Lt` chain walk (`node.rs` lines 127-144): the chain
reached `Default` (`stat`), reached `Return` (`ret`), dereferenced an
out-of-bounds `Arg` index (`oob`, a Rust panic), or ran out of fuel
(`div`). -/
inductive ChainRes
  | stat | ret | oob | div
deriving DecidableEq, Repr

/-- The inner `loop` of `node.rs` lines 129-143: follow `Arg` links
until `Default` or `Return`.  `lts.length + 1` steps of fuel suffice for
any terminating walk: a walk that takes more steps revisits one of the
at most `lts.length` entries and therefore never terminates (`div`). -/
def chainStep (lts : List Lt) : Nat → Lt → ChainRes
  | 0, _ => .div
  | _ + 1, .Default => .stat
  | _ + 1, .Return => .ret
  | fuel + 1, .Arg x =>
    match lts.get? x with
    | some l => chainStep lts fuel l
    | none => .oob

/-- The `'args` loop of `node.rs` lines 127-144: walk every constraint;
a chain ending at `Return` stops the whole walk (`break 'args`), one
ending at `Default` moves to the next constraint. -/
def walkLts (lts : List Lt) : List Lt → ChainRes
  | [] => .stat
  | l :: rest =>
    match chainStep lts (lts.length + 1) l with
    | .stat => walkLts lts rest
    | .ret => .ret
    | .oob => .oob
    | .div => .div

/-- Per-child policy of the big `(self.kind, child.kind)` match of
`node.rs` lines 160-263: `contribute` for the `{}` arms, `skip` for the
`continue` arms, `callArg` for the `CallArg`-under-call arms, and
`unimplemented` for the catch-all `panic!`.  The arms are listed in
source order; earlier arms win. -/
inductive ChildPolicy
  | contribute | skip | callArg | unimplemented
deriving DecidableEq, Repr

/-- See `ChildPolicy`. -/
def childPolicy (parent child : Kind) : ChildPolicy :=
  match parent, child with
  | _, .Link => .contribute
  | _, .LinkFor => .contribute
  | _, .LinkItem => .contribute
  | _, .ReturnVoid => .contribute
  | _, .Swizzle => .contribute
  | _, .Loop => .contribute
  | _, .Go => .contribute
  | _, .For => .contribute
  | _, .ForN => .contribute
  | _, .Break => .contribute
  | _, .Continue => .contribute
  | _, .Sift => .contribute
  | _, .SumVec4 => .contribute
  | _, .Sum => .contribute
  | _, .Prod => .contribute
  | _, .ProdVec4 => .contribute
  | _, .Min => .contribute
  | _, .Max => .contribute
  | _, .Any => .contribute
  | _, .All => .contribute
  | _, .Vec4UnLoop => .contribute
  | _, .Vec4 => .contribute
  | _, .Start => .skip
  | _, .End => .skip
  | _, .Assign => .contribute
  | _, .Object => .contribute
  | _, .KeyValue => .contribute
  | _, .Val => .contribute
  | _, .Add => .contribute
  | _, .Mul => .contribute
  | _, .Call => .contribute
  | _, .Closure => .contribute
  | _, .CallClosure => .contribute
  | _, .Grab => .contribute
  | _, .TryExpr => .contribute
  | _, .Arg => .skip
  | _, .Current => .skip
  | .CallClosure, .Item => .skip
  | _, .Item => .contribute
  | _, .Norm => .contribute
  | _, .UnOp => .skip
  | _, .Compare => .skip
  | _, .Left => .contribute
  | _, .Right => .contribute
  | _, .Expr => .contribute
  | _, .Return => .contribute
  | _, .Array => .contribute
  | _, .ArrayItem => .contribute
  | _, .ArrayFill => .contribute
  | _, .Pow => .contribute
  | _, .Base => .contribute
  | _, .Exp => .contribute
  | _, .Block => .contribute
  | _, .If => .contribute
  | _, .TrueBlock => .contribute
  | _, .ElseIfBlock => .contribute
  | _, .ElseBlock => .contribute
  | _, .Cond => .skip
  | _, .ElseIfCond => .skip
  | _, .Fill => .contribute
  | _, .N => .skip
  | .Call, .CallArg => .callArg
  | .CallClosure, .CallArg => .callArg
  | _, _ => .unimplemented

/-- `nodes[declaration].children.iter().filter(kind == Arg).nth(k)`
from `node.rs` lines 246-248: the lazily evaluated `k`-th child of
`Arg` kind; indexing a bad child index panics. -/
def nthArgChild (nodes : List Node) : List Nat → Nat → LRes (Option (Nat × Node))
  | [], _ => .ok none
  | c :: rest, k =>
    match nodes.get? c with
    | none => .panicked
    | some nd =>
      if nd.kind = Kind.Arg then
        if k = 0 then .ok (some (c, nd)) else nthArgChild nodes rest (k - 1)
      else nthArgChild nodes rest k

/-- Cons an optional contribution onto a contribution-list result. -/
def prependOpt (l? : Option Lifetime) : LRes (List Lifetime) → LRes (List Lifetime)
  | .ok ls =>
    match l? with
    | none => .ok ls
    | some l => .ok (l :: ls)
  | .panicked => .panicked
  | .hang => .hang

/-- The child loop of `node.rs` lines 159-271, producing the list of
lifetimes that enter the fold (in child order).  `rec` is the recursive
call `nodes[c].lifetime(nodes, arg_names)`; the second `Nat` is
`call_arg_ind`. -/
def contribs (nodes : List Node) (an : ArgNames)
    (rec : Node → LRes (Option Lifetime)) (self : Node) :
    List Nat → Nat → LRes (List Lifetime)
  | [], _ => .ok []
  | c :: rest, ind =>
    match nodes.get? c with
    | none => .panicked
    | some ch =>
      match childPolicy self.kind ch.kind with
      | .skip => contribs nodes an rec self rest ind
      | .unimplemented => .panicked
      | .contribute =>
        match rec ch with
        | .panicked => .panicked
        | .hang => .hang
        | .ok l? => prependOpt l? (contribs nodes an rec self rest ind)
      | .callArg =>
        match self.declaration with
        | none =>
          match rec ch with
          | .panicked => .panicked
          | .hang => .hang
          | .ok l? => prependOpt l? (contribs nodes an rec self rest (ind + 1))
        | some decl =>
          match nodes.get? decl with
          | none => .panicked
          | some dn =>
            match nthArgChild nodes dn.children ind with
            | .panicked => .panicked
            | .hang => .hang
            | .ok none =>
              match rec ch with
              | .panicked => .panicked
              | .hang => .hang
              | .ok l? =>
                prependOpt l? (contribs nodes an rec self rest (ind + 1))
            | .ok (some (a, anode)) =>
              match arg_lifetime a anode nodes an with
              | some (.Return _) =>
                match rec ch with
                | .panicked => .panicked
                | .hang => .hang
                | .ok l? =>
                  prependOpt l? (contribs nodes an rec self rest (ind + 1))
              | _ => contribs nodes an rec self rest (ind + 1)

/-- "Pick the smallest lifetime among children": the aggregation that
`Node::lifetime` falls through to (`node.rs` lines 155-272). -/
def aggregate (nodes : List Node) (an : ArgNames)
    (rec : Node → LRes (Option Lifetime)) (self : Node) :
    LRes (Option Lifetime) :=
  match contribs nodes an rec self self.children 0 with
  | .ok ls => .ok (pickMin ls)
  | .panicked => .panicked
  | .hang => .hang

/-- One unrolling of `Node::lifetime` (`node.rs` lines 106-273), with
the recursive call abstracted as `rec`. -/
def lifetimeGo (nodes : List Node) (an : ArgNames)
    (rec : Node → LRes (Option Lifetime)) (self : Node) :
    LRes (Option Lifetime) :=
  if self.has_lifetime then
    match self.declaration with
    | some declaration =>
      if self.kind = Kind.Item then
        match nodes.get? declaration with
        | none => .panicked
        | some arg =>
          if arg.kind = Kind.Arg then
            .ok (arg_lifetime declaration arg nodes an)
          else if arg.kind = Kind.Current then
            .ok (some (Lifetime.Current declaration))
          else
            .ok (some (Lifetime.Local declaration))
      else aggregate nodes an rec self
    | none =>
      if self.kind = Kind.Call ∧ self.lts ≠ [] then
        match walkLts self.lts self.lts with
        | .stat => .ok none
        | .ret => aggregate nodes an rec self
        | .oob => .panicked
        | .div => .hang
      else if self.kind = Kind.Item ∧ self.name = some "return" then
        .ok (some (Lifetime.Return []))
      else aggregate nodes an rec self
  else .ok none

/-- `Node::lifetime` with fuel bounding the recursion depth into
children.  `hang` at fuel 0; the result of any terminating run is
stable for all larger fuels. -/
def lifetimeF (nodes : List Node) (an : ArgNames) : Nat → Node → LRes (Option Lifetime)
  | 0, _ => .hang
  | fuel + 1, self => lifetimeGo nodes an (lifetimeF nodes an fuel) self

/-- Modelled from the spec: the metadata-event payload
(`piston_meta::MetaData`): `StartNode`, `EndNode`, string, boolean and
64-bit-float key/value events.  The float payload is modelled as `Rat`
(the builder only compares it with 1 and truncates it). -/
inductive MetaData
  | StartNode (kindName : String)
  | EndNode (kindName : String)
  | Str (key val : String)
  | BoolD (key : String) (val : Bool)
  | F64 (key : String) (val : Rat)
deriving DecidableEq, Repr

/-- One ranged event, `Range<MetaData>`. -/
structure REvent where
  range : Range
  data : MetaData
deriving DecidableEq, Repr

/-- Result of `convert_meta_data`: the final node array on success, a
ranged error, or a Rust panic (`unwrap` on the empty parent stack). -/
inductive BuildRes
  | ok (nodes : List Node)
  | err (range : Range) (msg : String)
  | panicked
deriving DecidableEq, Repr

/-- Modelled from the spec: `Kind::new` (`kind.rs`, not in src/), the
kind-name resolver.  The spec fixes only that known names resolve and
unknown ones do not; the name table here uses the spec's own names for
the kinds. -/
def Kind.new (s : String) : Option Kind :=
  match s with
  | "Start" => some .Start
  | "End" => some .End
  | "Fn" => some .Fn
  | "Block" => some .Block
  | "Expr" => some .Expr
  | "Add" => some .Add
  | "Mul" => some .Mul
  | "Pow" => some .Pow
  | "Base" => some .Base
  | "Exp" => some .Exp
  | "Val" => some .Val
  | "Call" => some .Call
  | "CallArg" => some .CallArg
  | "CallClosure" => some .CallClosure
  | "Closure" => some .Closure
  | "Item" => some .Item
  | "Norm" => some .Norm
  | "UnOp" => some .UnOp
  | "Compare" => some .Compare
  | "If" => some .If
  | "Cond" => some .Cond
  | "TrueBlock" => some .TrueBlock
  | "ElseIfCond" => some .ElseIfCond
  | "ElseIfBlock" => some .ElseIfBlock
  | "ElseBlock" => some .ElseBlock
  | "Assign" => some .Assign
  | "Left" => some .Left
  | "Right" => some .Right
  | "Object" => some .Object
  | "KeyValue" => some .KeyValue
  | "Array" => some .Array
  | "ArrayItem" => some .ArrayItem
  | "ArrayFill" => some .ArrayFill
  | "Fill" => some .Fill
  | "N" => some .N
  | "Return" => some .Return
  | "ReturnVoid" => some .ReturnVoid
  | "Break" => some .Break
  | "Continue" => some .Continue
  | "Go" => some .Go
  | "For" => some .For
  | "ForN" => some .ForN
  | "Loop" => some .Loop
  | "Arg" => some .Arg
  | "Current" => some .Current
  | "Sift" => some .Sift
  | "SumVec4" => some .SumVec4
  | "ProdVec4" => some .ProdVec4
  | "Sum" => some .Sum
  | "Prod" => some .Prod
  | "Min" => some .Min
  | "Max" => some .Max
  | "Any" => some .Any
  | "All" => some .All
  | "Vec4" => some .Vec4
  | "Vec4UnLoop" => some .Vec4UnLoop
  | "Swizzle" => some .Swizzle
  | "Link" => some .Link
  | "LinkFor" => some .LinkFor
  | "LinkItem" => some .LinkItem
  | "Grab" => some .Grab
  | "TryExpr" => some .TryExpr
  | "Type" => some .Type_
  | "RetType" => some .RetType
  | _ => none

/-- The defensive default-type table of `node.rs` lines 305-318. -/
def defaultTy : Kind → Option Ty
  | .Array | .ArrayFill => some .array
  | .Vec4 | .Vec4UnLoop => some .vec4
  | .Object => some .object
  | .Sift => some .array
  | .Sum | .Prod => some .f64
  | .Norm => some .f64
  | .Swizzle => some .f64
  | .Link | .LinkFor => some .link
  | .Any | .All => some (.secret .bool)
  | .Min | .Max => some (.secret .f64)
  | .For | .ForN => some .void
  | _ => none

/-- The Rust `val as u16` cast of `node.rs` line 497, for the
non-negative values that reach it: truncate and saturate at 65535. -/
def toU16 (v : Rat) : Nat :=
  min v.floor.toNat 65535

/-- Replace the node at an index by a function of it (the builder's
`nodes[i] = ...` mutations); out-of-range indices never occur on the
paths the builder takes. -/
def modifyAt : List Node → Nat → (Node → Node) → List Node
  | [], _, _ => []
  | n :: rest, 0, f => f n :: rest
  | n :: rest, k + 1, f => n :: modifyAt rest k f

/-- The node pushed by the builder for a `StartNode` event at index `i`
(`node.rs` lines 320-340): fresh fields, defensive default type, parent
the current top of stack, `start = i`, `end = 0`. -/
def pushedNode (kind : Kind) (i : Nat) (parents : List Nat) : Node :=
  { kind := kind, ty := defaultTy kind, parent := parents.head?, start := i }

/-- The single-field mutations the builder performs on the node at the
top of the parent stack in response to `String`/`Bool` events
(`node.rs` lines 356-483); each source match arm is one variant. -/
inductive FieldUpd
  | setAlias (s : String)
  | addName (s : String)
  | word (s : String)
  | setLifetime (s : String)
  | setTy (t : Ty)
  | setOp (o : AssignOp)
  | setMutable (b : Bool)
  | setTry (b : Bool)
  | setKind (k : Kind)
  | addBinop (b : BinOp)
deriving DecidableEq, Repr

/-- Interpretation of a `FieldUpd` on a node; `word` implements the
word-joining of `node.rs` lines 366-380 (a trailing underscore on the
first word except for `CallClosure`, later words appended after an
underscore). -/
def applyUpd : FieldUpd → Node → Node
  | .setAlias s, nd => { nd with aliasN := some s }
  | .addName s, nd => { nd with names := nd.names ++ [s] }
  | .word s, nd =>
    { nd with names :=
        match nd.names with
        | [] => [if nd.kind = Kind.CallClosure then s else s ++ "_"]
        | n0 :: rest => (n0 ++ "_" ++ s) :: rest }
  | .setLifetime s, nd => { nd with lifetime := some s }
  | .setTy t, nd => { nd with ty := some t }
  | .setOp o, nd => { nd with op := some o }
  | .setMutable b, nd => { nd with mutable := b }
  | .setTry b, nd => { nd with tryf := b }
  | .setKind k, nd => { nd with kind := k }
  | .addBinop b, nd => { nd with binops := nd.binops ++ [b] }

/-- Key dispatch for a `String(key, val)` event (`node.rs` lines
356-394); `none` for unrecognized keys, which are ignored. -/
def strUpd (k v : String) : Option FieldUpd :=
  if k = "alias" then some (.setAlias v)
  else if k = "name" then some (.addName v)
  else if k = "word" then some (.word v)
  else if k = "lifetime" then some (.setLifetime v)
  else if k = "text" then some (.setTy Ty.text)
  else if k = "color" then some (.setTy Ty.vec4)
  else none

/-- Key dispatch for a `Bool(key, val)` event (`node.rs` lines
396-483); `none` for unrecognized keys, which are ignored. -/
def boolUpd (k : String) (v : Bool) : Option FieldUpd :=
  if k = ":=" then some (.setOp .Assign)
  else if k = "=" then some (.setOp .Set)
  else if k = "+=" then some (.setOp .Add)
  else if k = "-=" then some (.setOp .Sub)
  else if k = "*=" then some (.setOp .Mul)
  else if k = "/=" then some (.setOp .Div)
  else if k = "%=" then some (.setOp .Rem)
  else if k = "^=" then some (.setOp .Pow)
  else if k = "mut" then some (.setMutable v)
  else if k = "try" ∨ k = "try_item" then some (.setTry v)
  else if k = "bool" then some (.setTy Ty.bool)
  else if k = "returns" then some (.setTy (if v then Ty.anyTy else Ty.void))
  else if k = "return_void" then some (.setKind Kind.ReturnVoid)
  else if k = "*." then some (.addBinop BinOp.Dot)
  else if k = "x" then some (.addBinop BinOp.Cross)
  else if k = "*" then some (.addBinop BinOp.Mul)
  else if k = "/" then some (.addBinop BinOp.Div)
  else if k = "%" then some (.addBinop BinOp.Rem)
  else if k = "&&" then some (.addBinop BinOp.AndAlso)
  else none

/-- The per-key mutation of a `String(key, val)` event. -/
def strAct (k v : String) : Option (Node → Node) :=
  (strUpd k v).map applyUpd

/-- The per-key mutation of a `Bool(key, val)` event. -/
def boolAct (k : String) (v : Bool) : Option (Node → Node) :=
  (boolUpd k v).map applyUpd

/-- The skip guard of `node.rs` lines 284-286: events with index below
the recorded offset are skipped. -/
def skipActive (skip : Option Nat) (i : Nat) : Bool :=
  match skip with
  | some j => decide (i < j)
  | none => false

/-- The external type-subtree parser (`Type::from_meta_data`, outside
this core per the spec): given the kind name and the events from the
marker onward, either the number of consumed events (the returned
range's `next_offset`) together with the parsed type, or a failure. -/
def TypeParser : Type :=
  String → List REvent → Option (Nat × Ty)

/-- The event loop of `convert_meta_data` (`node.rs` lines 283-503),
with the event index, the skip offset, the parent stack (head is the
top) and the node array threaded explicitly. -/
def convertLoop (tp : TypeParser) :
    List REvent → Nat → Option Nat → List Nat → List Node → BuildRes
  | [], _, _, _, nodes => .ok nodes
  | d :: rest, i, skip, parents, nodes =>
    if skipActive skip i then convertLoop tp rest (i + 1) skip parents nodes
    else
      match d.data with
      | .StartNode kindName =>
        match Kind.new kindName with
        | none => .err d.range ("Unknown kind `" ++ kindName ++ "`")
        | some kind =>
          if kind = Kind.Type_ ∨ kind = Kind.RetType then
            match tp kindName (d :: rest) with
            | some (n, val) =>
              match parents with
              | [] => .panicked
              | p :: _ =>
                convertLoop tp rest (i + 1) (some (n + i)) parents
                  (modifyAt nodes p fun nd => { nd with ty := some val })
            | none =>
              convertLoop tp rest (i + 1) skip (nodes.length :: parents)
                (nodes ++ [pushedNode kind i parents])
          else
            convertLoop tp rest (i + 1) skip (nodes.length :: parents)
              (nodes ++ [pushedNode kind i parents])
      | .EndNode _ =>
        match parents with
        | [] => .panicked
        | p :: [] =>
          convertLoop tp rest (i + 1) skip []
            (modifyAt nodes p fun nd => { nd with source := d.range, end_ := i + 1 })
        | p :: q :: ps =>
          convertLoop tp rest (i + 1) skip (q :: ps)
            (modifyAt
              (modifyAt nodes p fun nd => { nd with source := d.range, end_ := i + 1 })
              q fun nd => { nd with children := nd.children ++ [p] })
      | .Str k v =>
        match strAct k v with
        | none => convertLoop tp rest (i + 1) skip parents nodes
        | some f =>
          match parents with
          | [] => .panicked
          | p :: _ => convertLoop tp rest (i + 1) skip parents (modifyAt nodes p f)
      | .BoolD k v =>
        match boolAct k v with
        | none => convertLoop tp rest (i + 1) skip parents nodes
        | some f =>
          match parents with
          | [] => .panicked
          | p :: _ => convertLoop tp rest (i + 1) skip parents (modifyAt nodes p f)
      | .F64 k v =>
        if k = "num" then
          match parents with
          | [] => .panicked
          | p :: _ =>
            convertLoop tp rest (i + 1) skip parents
              (modifyAt nodes p fun nd => { nd with ty := some Ty.f64 })
        else if k = "grab_level" then
          -- The source message quotes the level; the quoting is elided here.
          if v < 1 then .err d.range "Grab level must be at least 1"
          else
            match parents with
            | [] => .panicked
            | p :: _ =>
              convertLoop tp rest (i + 1) skip parents
                (modifyAt nodes p fun nd => { nd with grab_level := toU16 v })
        else convertLoop tp rest (i + 1) skip parents nodes

/-- `convert_meta_data` (`node.rs` lines 276-505): run the event loop
from an initial node array (empty at every call site considered here). -/
def convert_meta_data (tp : TypeParser) (nodes : List Node) (data : List REvent) :
    BuildRes :=
  convertLoop tp data 0 none [] nodes

/-- A type parser that always fails. -/
def tpNone : TypeParser := fun _ _ => none

/-- A trivial argument-name table for concrete scenarios. -/
def anTriv : ArgNames := ⟨fun i => i, fun _ => none⟩

/-- The spec's builder invariant, restricted to closed nodes: every node
that got an `EndNode` (`end ≠ 0`) has `start ≤ end`. -/
def startLeEndClosed (ns : List Node) : Bool :=
  ns.all fun n => n.end_ == 0 || decide (n.start ≤ n.end_)

/-! Concrete scenarios used by the claims. -/

/-- Scenario: a `Block` whose two `Item` children carry a `Local` and a
`Return` lifetime (node 0 references the binding at node 2; node 1 is
the literal `return` item). -/
def c1nodes : List Node :=
  [ { kind := .Item, declaration := some 2 },
    { kind := .Item, names := ["return"] },
    { kind := .Item, names := ["x"] } ]

/-- The `Block` aggregating the two items of `c1nodes`. -/
def c1root : Node :=
  { kind := .Block, children := [0, 1] }

/-- Scenario: a `Call` with `lts = [Return, Default]`, declaration the
`Fn` at node 5 with two declared `Arg`s (the first annotated "return"),
and two `CallArg` children: the first holds an `Item` referencing the
local binding at node 8, the second the literal `return` item. -/
def c2nodes : List Node :=
  [ { kind := .Call, lts := [Lt.Return, Lt.Default], declaration := some 5,
      children := [1, 3] },
    { kind := .CallArg, children := [2] },
    { kind := .Item, declaration := some 8 },
    { kind := .CallArg, children := [4] },
    { kind := .Item, names := ["return"] },
    { kind := .Fn, children := [6, 7] },
    { kind := .Arg, lifetime := some "return" },
    { kind := .Arg },
    { kind := .Item, names := ["x"] } ]

/-- The `Call` node of the `c2nodes` scenario (node 0). -/
def c2root : Node :=
  { kind := .Call, lts := [Lt.Return, Lt.Default], declaration := some 5,
    children := [1, 3] }

/-- Counterexample scenario for the all-`Default` claim: the `Call` has
all-`Default` constraints but also a declaration, and an `Item` child
referencing the binding at node 0. -/
def c3nodes : List Node :=
  [ { kind := .Item, names := ["x"] },
    { kind := .Item, declaration := some 0 } ]

/-- The `Call` node of the `c3nodes` counterexample. -/
def c3root : Node :=
  { kind := .Call, lts := [Lt.Default], declaration := some 0, children := [1] }

/-- An undeclared `Call` whose constraint chains all resolve to
`Default` (the second via `Arg 0`). -/
def c3ok : Node :=
  { kind := .Call, lts := [Lt.Default, Lt.Arg 0] }

/-- An undeclared `Call` with the cyclic constraint `lts = [Arg 0]`. -/
def c4node : Node :=
  { kind := .Call, lts := [Lt.Arg 0] }

/-- An undeclared `Call` whose only constraint dereferences the
out-of-bounds `Arg (k+1)` first. -/
def c10node (k : Nat) : Node :=
  { kind := .Call, lts := [Lt.Arg (k + 1)] }

/-- An undeclared `Call` whose first chain hits `Return`, so the
out-of-bounds `Arg 9` in the second constraint is never dereferenced. -/
def c10ret : Node :=
  { kind := .Call, lts := [Lt.Return, Lt.Arg 9] }

/-- Counterexample scenario for the pass-through claim: a `Compare` with
one `Item` child referencing the binding at node 2. -/
def c7nodes : List Node :=
  [ { kind := .Compare, children := [1] },
    { kind := .Item, declaration := some 2 },
    { kind := .Item, names := ["x"] } ]

/-- An `Add` whose single child is the `Compare` of `c7nodes` — a
skipped child kind. -/
def c7root : Node :=
  { kind := .Add, children := [0] }

/-- Pass-through witness scenario: an `Add` with a single plain `Item`
child. -/
def c7wnodes : List Node :=
  [ { kind := .Item } ]

/-- The `Add` over `c7wnodes`. -/
def c7wroot : Node :=
  { kind := .Add, children := [0] }

/-- Event stream with a failing type subtree: `Item { Type { } }`. -/
def c5evs : List REvent :=
  [ ⟨⟨0, 1⟩, .StartNode "Item"⟩,
    ⟨⟨1, 1⟩, .StartNode "Type"⟩,
    ⟨⟨2, 1⟩, .EndNode "Type"⟩,
    ⟨⟨3, 1⟩, .EndNode "Item"⟩ ]

/-- Event stream whose second opened node is never closed. -/
def c6evs : List REvent :=
  [ ⟨⟨0, 1⟩, .StartNode "Item"⟩,
    ⟨⟨1, 1⟩, .StartNode "Call"⟩ ]

/-- A single opened-and-closed node. -/
def c6wevs : List REvent :=
  [ ⟨⟨0, 1⟩, .StartNode "Item"⟩,
    ⟨⟨1, 1⟩, .EndNode "Item"⟩ ]

/-- Scenario: `If { Cond { Item (local) }, TrueBlock { Item return } }`;
node 5 is the binding the condition's item references. -/
def c8nodes : List Node :=
  [ { kind := .If, children := [1, 3] },
    { kind := .Cond, children := [2] },
    { kind := .Item, declaration := some 5 },
    { kind := .TrueBlock, children := [4] },
    { kind := .Item, names := ["return"] },
    { kind := .Item, names := ["x"] } ]

/-- The `If` node of the `c8nodes` scenario (node 0). -/
def c8root : Node :=
  { kind := .If, children := [1, 3] }

/-- Builder invariant: every closed node has `start ≤ end`. -/
def InvA (ns : List Node) : Prop :=
  ∀ n ∈ ns, n.end_ ≠ 0 → n.start ≤ n.end_

/-- Builder invariant: every open parent is a valid index whose node was
started no later than the current event index. -/
def InvB (i : Nat) (parents : List Nat) (ns : List Node) : Prop :=
  ∀ p ∈ parents, ∃ n, ns.get? p = some n ∧ n.start ≤ i

/-! Order lemmas for the modelled `Lifetime` comparison. -/

theorem listLtNat_irrefl : ∀ xs, listLtNat xs xs = false
  | [] => rfl
  | _ :: xs => by simp [listLtNat, listLtNat_irrefl xs]

theorem listLtNat_trans :
    ∀ xs ys zs : List Nat, listLtNat xs ys = true → listLtNat ys zs = true →
      listLtNat xs zs = true := by
  intro xs
  induction xs with
  | nil =>
    intro ys zs h1 h2
    cases ys with
    | nil => simp [listLtNat] at h1
    | cons b ys =>
      cases zs with
      | nil => simp [listLtNat] at h2
      | cons c zs => simp [listLtNat]
  | cons a xs ih =>
    intro ys zs h1 h2
    cases ys with
    | nil => simp [listLtNat] at h1
    | cons b ys =>
      cases zs with
      | nil => simp [listLtNat] at h2
      | cons c zs =>
        simp only [listLtNat, Bool.or_eq_true, Bool.and_eq_true,
          decide_eq_true_eq] at h1 h2 ⊢
        rcases h1 with h1 | ⟨rfl, h1⟩
        · rcases h2 with h2 | ⟨rfl, h2⟩
          · exact Or.inl (h1.trans h2)
          · exact Or.inl h1
        · rcases h2 with h2 | ⟨rfl, h2⟩
          · exact Or.inl h2
          · exact Or.inr ⟨rfl, ih ys zs h1 h2⟩

theorem listLtNat_total :
    ∀ xs ys : List Nat, xs = ys ∨ listLtNat xs ys = true ∨ listLtNat ys xs = true := by
  intro xs
  induction xs with
  | nil =>
    intro ys
    cases ys with
    | nil => exact Or.inl rfl
    | cons b ys => exact Or.inr (Or.inl (by simp [listLtNat]))
  | cons a xs ih =>
    intro ys
    cases ys with
    | nil => exact Or.inr (Or.inr (by simp [listLtNat]))
    | cons b ys =>
      rcases Nat.lt_trichotomy a b with hab | hab | hab
      · exact Or.inr (Or.inl (by simp [listLtNat, hab]))
      · subst hab
        rcases ih ys with h | h | h
        · exact Or.inl (by rw [h])
        · exact Or.inr (Or.inl (by simp [listLtNat, h]))
        · exact Or.inr (Or.inr (by simp [listLtNat, h]))
      · exact Or.inr (Or.inr (by simp [listLtNat, hab]))

theorem lexLt_trans {i j k : Nat} {p q r : List Nat}
    (h1 : i < j ∨ i = j ∧ listLtNat p q = true)
    (h2 : j < k ∨ j = k ∧ listLtNat q r = true) :
    i < k ∨ i = k ∧ listLtNat p r = true := by
  rcases h1 with h1 | ⟨rfl, h1⟩
  · rcases h2 with h2 | ⟨rfl, h2⟩
    · exact Or.inl (h1.trans h2)
    · exact Or.inl h1
  · rcases h2 with h2 | ⟨rfl, h2⟩
    · exact Or.inl h2
    · exact Or.inr ⟨rfl, listLtNat_trans p q r h1 h2⟩

theorem Lifetime.lt_irrefl : ∀ a, Lifetime.lt a a = false := by
  intro a
  cases a <;> simp [Lifetime.lt, listLtNat_irrefl]

theorem Lifetime.lt_trans :
    ∀ a b c, Lifetime.lt a b = true → Lifetime.lt b c = true →
      Lifetime.lt a c = true := by
  intro a b c h1 h2
  cases a <;> cases b <;> cases c <;>
    first
    | rfl
    | exact Bool.noConfusion h1
    | exact Bool.noConfusion h2
    | skip
  case Local.Local.Local i j k =>
    simp only [Lifetime.lt, decide_eq_true_eq] at h1 h2 ⊢
    omega
  case Current.Current.Current i j k =>
    simp only [Lifetime.lt, decide_eq_true_eq] at h1 h2 ⊢
    omega
  case Argument.Argument.Argument i p j q k r =>
    simp only [Lifetime.lt, Bool.or_eq_true, Bool.and_eq_true,
      decide_eq_true_eq] at h1 h2 ⊢
    exact lexLt_trans h1 h2
  case Return.Return.Return p q r =>
    exact listLtNat_trans _ _ _ h1 h2

theorem Lifetime.lt_total :
    ∀ a b, a = b ∨ Lifetime.lt a b = true ∨ Lifetime.lt b a = true := by
  intro a b
  cases a <;> cases b <;>
    first
    | exact Or.inr (Or.inl rfl)
    | exact Or.inr (Or.inr rfl)
    | skip
  case Local.Local i j =>
    rcases Nat.lt_trichotomy i j with h | h | h
    · exact Or.inr (Or.inl (by simp [Lifetime.lt, h]))
    · exact Or.inl (by rw [h])
    · exact Or.inr (Or.inr (by simp [Lifetime.lt, h]))
  case Current.Current i j =>
    rcases Nat.lt_trichotomy i j with h | h | h
    · exact Or.inr (Or.inl (by simp [Lifetime.lt, h]))
    · exact Or.inl (by rw [h])
    · exact Or.inr (Or.inr (by simp [Lifetime.lt, h]))
  case Argument.Argument i p j q =>
    rcases Nat.lt_trichotomy i j with h | h | h
    · exact Or.inr (Or.inl (by simp [Lifetime.lt, h]))
    · subst h
      rcases listLtNat_total p q with h | h | h
      · exact Or.inl (by rw [h])
      · exact Or.inr (Or.inl (by simp [Lifetime.lt, h]))
      · exact Or.inr (Or.inr (by simp [Lifetime.lt, h]))
    · exact Or.inr (Or.inr (by simp [Lifetime.lt, h]))
  case Return.Return p q =>
    rcases listLtNat_total p q with h | h | h
    · exact Or.inl (by rw [h])
    · exact Or.inr (Or.inl (by simpa [Lifetime.lt] using h))
    · exact Or.inr (Or.inr (by simpa [Lifetime.lt] using h))

/-! The solver's fold returns a maximum under the implementation order,
hence a minimum under the spec's lattice order. -/

theorem foldl_lifetimeMinStep (ls : List Lifetime) :
    ∀ m r, ls.foldl lifetimeMinStep (some m) = some r →
      (r = m ∨ r ∈ ls) ∧ Lifetime.lt r m = false ∧
        ∀ x ∈ ls, Lifetime.lt r x = false := by
  induction ls with
  | nil =>
    intro m r h
    simp only [List.foldl] at h
    injection h with h
    subst h
    exact ⟨Or.inl rfl, Lifetime.lt_irrefl m, by simp⟩
  | cons x ls ih =>
    intro m r h
    simp only [List.foldl] at h
    by_cases hx : Lifetime.lt m x = true
    · rw [show lifetimeMinStep (some m) x = some x by simp [lifetimeMinStep, hx]] at h
      obtain ⟨hmem, hrx, hall⟩ := ih x r h
      have hrm : Lifetime.lt r m = false := by
        by_cases hq : Lifetime.lt r m = true
        · exact absurd (Lifetime.lt_trans r m x hq hx) (by simp [hrx])
        · simpa using hq
      refine ⟨?_, hrm, ?_⟩
      · rcases hmem with rfl | hmem
        · exact Or.inr (List.mem_cons_self _ _)
        · exact Or.inr (List.mem_cons_of_mem _ hmem)
      · intro y hy
        rcases List.mem_cons.mp hy with rfl | hy
        · exact hrx
        · exact hall y hy
    · have hx' : Lifetime.lt m x = false := by simpa using hx
      rw [show lifetimeMinStep (some m) x = some m by simp [lifetimeMinStep, hx']] at h
      obtain ⟨hmem, hrm, hall⟩ := ih m r h
      have hrx : Lifetime.lt r x = false := by
        rcases Lifetime.lt_total r m with he | hlt | hlt
        · subst he; exact hx'
        · exact absurd hlt (by simp [hrm])
        · by_cases hq : Lifetime.lt r x = true
          · exact absurd (Lifetime.lt_trans m r x hlt hq) (by simp [hx'])
          · simpa using hq
      refine ⟨?_, hrm, ?_⟩
      · rcases hmem with rfl | hmem
        · exact Or.inl rfl
        · exact Or.inr (List.mem_cons_of_mem _ hmem)
      · intro y hy
        rcases List.mem_cons.mp hy with rfl | hy
        · exact hrx
        · exact hall y hy

theorem pickMin_spec (ls : List Lifetime) (l : Lifetime)
    (h : pickMin ls = some l) :
    l ∈ ls ∧ ∀ x ∈ ls, latticeLe l x = true := by
  cases ls with
  | nil => simp [pickMin, List.foldl] at h
  | cons x ls =>
    have h' : ls.foldl lifetimeMinStep (some x) = some l := by
      simpa [pickMin, List.foldl, lifetimeMinStep] using h
    obtain ⟨hmem, hlx, hall⟩ := foldl_lifetimeMinStep ls x l h'
    constructor
    · rcases hmem with rfl | hmem
      · exact List.mem_cons_self _ _
      · exact List.mem_cons_of_mem _ hmem
    · intro y hy
      have hne : Lifetime.lt l y = false := by
        rcases List.mem_cons.mp hy with rfl | hm
        · exact hlx
        · exact hall y hm
      rcases Lifetime.lt_total l y with he | hlt | hlt
      · subst he; simp [latticeLe]
      · exact absurd hlt (by simp [hne])
      · simp [latticeLe, hlt]

/-! Builder helper lemmas. -/

theorem modifyAt_get? :
    ∀ (ns : List Node) (p q : Nat) (f : Node → Node),
      (modifyAt ns p f).get? q =
        if q = p then (ns.get? p).map f else ns.get? q := by
  intro ns
  induction ns with
  | nil =>
    intro p q f
    simp [modifyAt]
  | cons n rest ih =>
    intro p q f
    cases p with
    | zero =>
      cases q with
      | zero => simp [modifyAt]
      | succ q => simp [modifyAt, List.get?]
    | succ p =>
      cases q with
      | zero => simp [modifyAt, List.get?]
      | succ q =>
        simpa [modifyAt, List.get?, Nat.succ.injEq] using ih p q f

theorem mem_modifyAt :
    ∀ (ns : List Node) (p : Nat) (f : Node → Node) (x : Node),
      x ∈ modifyAt ns p f → x ∈ ns ∨ ∃ m, ns.get? p = some m ∧ x = f m := by
  intro ns
  induction ns with
  | nil =>
    intro p f x h
    simp [modifyAt] at h
  | cons n rest ih =>
    intro p f x h
    cases p with
    | zero =>
      rcases List.mem_cons.mp h with rfl | hm
      · exact Or.inr ⟨n, rfl, rfl⟩
      · exact Or.inl (List.mem_cons_of_mem _ hm)
    | succ p =>
      rcases List.mem_cons.mp h with rfl | hm
      · exact Or.inl (List.mem_cons_self _ _)
      · rcases ih p f x hm with h1 | ⟨m, hg, he⟩
        · exact Or.inl (List.mem_cons_of_mem _ h1)
        · exact Or.inr ⟨m, hg, he⟩

theorem get?_modifyAt_start (ns : List Node) (p q : Nat) (f : Node → Node)
    (hf : ∀ nd, (f nd).start = nd.start) (n : Node)
    (h : ns.get? q = some n) :
    ∃ n', (modifyAt ns p f).get? q = some n' ∧ n'.start = n.start := by
  rw [modifyAt_get?]
  by_cases hq : q = p
  · subst hq
    refine ⟨f n, ?_, hf n⟩
    rw [if_pos rfl, h]
    rfl
  · rw [if_neg hq]
    exact ⟨n, h, rfl⟩

theorem InvA_modifyAt (ns : List Node) (p : Nat) (f : Node → Node)
    (hf : ∀ nd, (f nd).start = nd.start ∧ (f nd).end_ = nd.end_)
    (hA : InvA ns) : InvA (modifyAt ns p f) := by
  intro x hx hne
  rcases mem_modifyAt ns p f x hx with hm | ⟨m, hg, rfl⟩
  · exact hA x hm hne
  · obtain ⟨h1, h2⟩ := hf m
    rw [h1, h2]
    rw [h2] at hne
    exact hA m (List.get?_mem hg) hne

theorem InvB_mono (i : Nat) (parents : List Nat) (ns : List Node)
    (h : InvB i parents ns) : InvB (i + 1) parents ns := by
  intro p hp
  obtain ⟨n, hg, hle⟩ := h p hp
  exact ⟨n, hg, hle.trans (Nat.le_succ i)⟩

theorem InvB_modifyAt (i : Nat) (parents : List Nat) (ns : List Node)
    (p : Nat) (f : Node → Node) (hf : ∀ nd, (f nd).start = nd.start)
    (h : InvB i parents ns) : InvB i parents (modifyAt ns p f) := by
  intro q hq
  obtain ⟨n, hg, hle⟩ := h q hq
  obtain ⟨n', hg', hs⟩ := get?_modifyAt_start ns p q f hf n hg
  exact ⟨n', hg', hs ▸ hle⟩

theorem InvB_append (i : Nat) (parents : List Nat) (ns : List Node)
    (x : Node) (h : InvB i parents ns) : InvB i parents (ns ++ [x]) := by
  intro q hq
  obtain ⟨n, hg, hle⟩ := h q hq
  have hlt : q < ns.length := (List.get?_eq_some.mp hg).1
  exact ⟨n, by rw [List.get?_append hlt]; exact hg, hle⟩

theorem InvB_push (i : Nat) (parents : List Nat) (ns : List Node)
    (x : Node) (hx : x.start = i) (h : InvB i parents ns) :
    InvB (i + 1) (ns.length :: parents) (ns ++ [x]) := by
  intro q hq
  rcases List.mem_cons.mp hq with rfl | hq
  · exact ⟨x, by rw [List.get?_concat_length], by omega⟩
  · obtain ⟨n, hg, hle⟩ := InvB_append i parents ns x h q hq
    exact ⟨n, hg, hle.trans (Nat.le_succ i)⟩

theorem InvA_append (ns : List Node) (x : Node) (hA : InvA ns)
    (hx : x.end_ = 0) : InvA (ns ++ [x]) := by
  intro n hn hne
  rcases List.mem_append.mp hn with h | h
  · exact hA n h hne
  · rw [List.mem_singleton.mp h] at hne ⊢
    exact absurd hx hne

theorem applyUpd_preserves (u : FieldUpd) (nd : Node) :
    (applyUpd u nd).start = nd.start ∧ (applyUpd u nd).end_ = nd.end_ := by
  cases u <;> simp [applyUpd]

theorem strAct_preserves (k v : String) (f : Node → Node)
    (h : strAct k v = some f) :
    ∀ nd, (f nd).start = nd.start ∧ (f nd).end_ = nd.end_ := by
  intro nd
  obtain ⟨u, _, rfl⟩ := Option.map_eq_some'.mp h
  exact applyUpd_preserves u nd

theorem boolAct_preserves (k : String) (v : Bool) (f : Node → Node)
    (h : boolAct k v = some f) :
    ∀ nd, (f nd).start = nd.start ∧ (f nd).end_ = nd.end_ := by
  intro nd
  obtain ⟨u, _, rfl⟩ := Option.map_eq_some'.mp h
  exact applyUpd_preserves u nd

theorem convertLoop_startLeEnd (tp : TypeParser) :
    ∀ (evs : List REvent) (i : Nat) (skip : Option Nat) (parents : List Nat)
      (nodes ns : List Node), InvA nodes → InvB i parents nodes →
      convertLoop tp evs i skip parents nodes = BuildRes.ok ns → InvA ns := by
  intro evs
  induction evs with
  | nil =>
    intro i skip parents nodes ns hA hB h
    simp only [convertLoop] at h
    injection h with h
    subst h
    exact hA
  | cons d rest ih =>
    intro i skip parents nodes ns hA hB h
    simp only [convertLoop] at h
    by_cases hsk : skipActive skip i = true
    · rw [if_pos hsk] at h
      exact ih _ _ _ _ _ hA (InvB_mono _ _ _ hB) h
    · rw [if_neg hsk] at h
      split at h
      · -- StartNode
        split at h
        · -- unknown kind: ranged error
          exact BuildRes.noConfusion h
        · split at h
          · -- type-subtree marker
            split at h
            · -- type parser succeeded: attach to parent
              split at h
              · exact BuildRes.noConfusion h
              · refine ih _ _ _ _ _ ?_ ?_ h
                · exact InvA_modifyAt _ _ _ (fun _ => ⟨rfl, rfl⟩) hA
                · exact InvB_mono _ _ _
                    (InvB_modifyAt _ _ _ _ _ (fun _ => rfl) hB)
            · -- type parser failed: falls through to the ordinary push
              refine ih _ _ _ _ _ ?_ ?_ h
              · exact InvA_append _ _ hA rfl
              · exact InvB_push _ _ _ _ rfl hB
          · -- ordinary push
            refine ih _ _ _ _ _ ?_ ?_ h
            · exact InvA_append _ _ hA rfl
            · exact InvB_push _ _ _ _ rfl hB
      · -- EndNode
        split at h
        · exact BuildRes.noConfusion h
        · -- the popped node was the only open one
          rename_i p
          refine ih _ _ _ _ _ ?_ ?_ h
          · intro x hx hne
            rcases mem_modifyAt _ _ _ _ hx with hm | ⟨m, hg, rfl⟩
            · exact hA x hm hne
            · obtain ⟨n, hgB, hle⟩ := hB p (List.mem_cons_self _ _)
              rw [hg] at hgB
              injection hgB with he
              subst he
              simpa using hle.trans (Nat.le_succ i)
          · intro q hq
            exact absurd hq (List.not_mem_nil q)
        · -- the popped node is attached to the remaining parent
          rename_i p q ps
          refine ih _ _ _ _ _ ?_ ?_ h
          · refine InvA_modifyAt _ _ _ (fun _ => ⟨rfl, rfl⟩) ?_
            intro x hx hne
            rcases mem_modifyAt _ _ _ _ hx with hm | ⟨m, hg, rfl⟩
            · exact hA x hm hne
            · obtain ⟨n, hgB, hle⟩ := hB p (List.mem_cons_self _ _)
              rw [hg] at hgB
              injection hgB with he
              subst he
              simpa using hle.trans (Nat.le_succ i)
          · refine InvB_mono _ _ _ ?_
            refine InvB_modifyAt _ _ _ _ _ (fun _ => rfl) ?_
            refine InvB_modifyAt _ _ _ _ _ (fun _ => rfl) ?_
            intro x hx
            exact hB x (List.mem_cons_of_mem _ hx)
      · -- String event
        split at h
        · exact ih _ _ _ _ _ hA (InvB_mono _ _ _ hB) h
        · rename_i f hact
          split at h
          · exact BuildRes.noConfusion h
          · refine ih _ _ _ _ _ ?_ ?_ h
            · exact InvA_modifyAt _ _ _ (strAct_preserves _ _ _ hact) hA
            · exact InvB_mono _ _ _ (InvB_modifyAt _ _ _ _ _
                (fun nd => (strAct_preserves _ _ _ hact nd).1) hB)
      · -- Bool event
        split at h
        · exact ih _ _ _ _ _ hA (InvB_mono _ _ _ hB) h
        · rename_i f hact
          split at h
          · exact BuildRes.noConfusion h
          · refine ih _ _ _ _ _ ?_ ?_ h
            · exact InvA_modifyAt _ _ _ (boolAct_preserves _ _ _ hact) hA
            · exact InvB_mono _ _ _ (InvB_modifyAt _ _ _ _ _
                (fun nd => (boolAct_preserves _ _ _ hact nd).1) hB)
      · -- F64 event
        split at h
        · -- "num"
          split at h
          · exact BuildRes.noConfusion h
          · refine ih _ _ _ _ _ ?_ ?_ h
            · exact InvA_modifyAt _ _ _ (fun _ => ⟨rfl, rfl⟩) hA
            · exact InvB_mono _ _ _
                (InvB_modifyAt _ _ _ _ _ (fun _ => rfl) hB)
        · split at h
          · -- "grab_level"
            split at h
            · exact BuildRes.noConfusion h
            · split at h
              · exact BuildRes.noConfusion h
              · refine ih _ _ _ _ _ ?_ ?_ h
                · exact InvA_modifyAt _ _ _ (fun _ => ⟨rfl, rfl⟩) hA
                · exact InvB_mono _ _ _
                    (InvB_modifyAt _ _ _ _ _ (fun _ => rfl) hB)
          · exact ih _ _ _ _ _ hA (InvB_mono _ _ _ hB) h

/-! Auxiliary lemmas for the claim theorems. -/

theorem has_lifetime_of_call (self : Node) (hk : self.kind = Kind.Call) :
    self.has_lifetime = true := by
  unfold Node.has_lifetime
  rw [hk]

theorem walkLts_stat (lts : List Lt) :
    ∀ l : List Lt,
      (∀ x ∈ l, chainStep lts (lts.length + 1) x = ChainRes.stat) →
      walkLts lts l = ChainRes.stat := by
  intro l
  induction l with
  | nil => intro _; rfl
  | cons x rest ih =>
    intro h
    simp only [walkLts, h x (List.mem_cons_self _ _)]
    exact ih fun y hy => h y (List.mem_cons_of_mem _ hy)

/-! The claim theorems. -/

/-- Claim C1: whenever `Node::lifetime` falls through to child
aggregation and some child contributes, the result is the smallest
lifetime among the contributing children's lifetimes under the lattice
order in which more-local lifetimes compare less (`latticeLe`); in
particular, a contributing `Local` lifetime beats a contributing
`Return` lifetime (see the witness). -/
theorem lifetime_aggregation_picks_lattice_min
    (nodes : List Node) (an : ArgNames) (fuel : Nat) (self : Node)
    (ls : List Lifetime) (l : Lifetime)
    (hft : lifetimeF nodes an (fuel + 1) self =
      aggregate nodes an (lifetimeF nodes an fuel) self)
    (hc : contribs nodes an (lifetimeF nodes an fuel) self self.children 0 =
      LRes.ok ls)
    (hm : pickMin ls = some l) :
    lifetimeF nodes an (fuel + 1) self = LRes.ok (some l) ∧ l ∈ ls ∧
      ls.all (fun x => latticeLe l x) = true := by
  obtain ⟨hmem, hall⟩ := pickMin_spec ls l hm
  refine ⟨?_, hmem, ?_⟩
  · rw [hft]
    simp [aggregate, hc, hm]
  · rw [List.all_eq_true]
    exact hall

/-- Witness for C1: a `Block` whose children carry `Local 2` and
`Return []`; the aggregation returns the `Local` lifetime, the lattice
minimum of the two. -/
theorem lifetime_aggregation_picks_lattice_min_witness :
    lifetimeF c1nodes anTriv 3 c1root = LRes.ok (some (Lifetime.Local 2)) ∧
      Lifetime.Local 2 ∈ [Lifetime.Local 2, Lifetime.Return []] ∧
      ([Lifetime.Local 2, Lifetime.Return []].all
        (fun x => latticeLe (Lifetime.Local 2) x)) = true :=
  lifetime_aggregation_picks_lattice_min c1nodes anTriv 2 c1root
    [Lifetime.Local 2, Lifetime.Return []] (Lifetime.Local 2)
    (by decide) (by decide) (by decide)

/-- Claim C2: on a `Call` with `lts = [Return, Default]` and two
`CallArg` children — the first holding a local with declaration index 8,
the second a `return` item — the first `CallArg` contributes `Local 8`,
the second is skipped (its declared argument is not return-bound), and
the call's lifetime is `Local 8`. -/
theorem call_return_bound_arg_scenario :
    lifetimeF c2nodes anTriv 9 { kind := Kind.CallArg, children := [2] } =
      LRes.ok (some (Lifetime.Local 8)) ∧
    lifetimeF c2nodes anTriv 9 { kind := Kind.CallArg, children := [4] } =
      LRes.ok (some (Lifetime.Return [])) ∧
    lifetimeF c2nodes anTriv 10 c2root = LRes.ok (some (Lifetime.Local 8)) := by
  decide

/-- Counterexample for C3: a `Call` whose every `Lt` chain resolves to
`Default` but whose `declaration` is set does NOT return `none` — the
constraint walk is bypassed and the `Item` child's `Local 0` is
returned. -/
theorem call_all_default_with_declaration_cex :
    (c3root.lts.all fun l =>
      chainStep c3root.lts (c3root.lts.length + 1) l == ChainRes.stat) = true ∧
    c3root.declaration = some 0 ∧
    lifetimeF c3nodes anTriv 3 c3root = LRes.ok (some (Lifetime.Local 0)) := by
  decide

/-- Claim C3 (amended): a `Call` node with non-empty `lts`, every chain
of which resolves to `Default`, has `lifetime = none` regardless of its
children, provided its `declaration` is `none` — with a declaration set
the constraint walk is bypassed entirely. -/
theorem call_all_default_no_declaration_none
    (nodes : List Node) (an : ArgNames) (fuel : Nat) (self : Node)
    (hk : self.kind = Kind.Call) (hd : self.declaration = none)
    (hne : self.lts ≠ [])
    (hall : ∀ l ∈ self.lts,
      chainStep self.lts (self.lts.length + 1) l = ChainRes.stat) :
    lifetimeF nodes an (fuel + 1) self = LRes.ok none := by
  have hhl := has_lifetime_of_call self hk
  have hwalk := walkLts_stat self.lts self.lts hall
  simp [lifetimeF, lifetimeGo, hhl, hd, hk, hne, hwalk]

/-- Witness for the amended C3: an undeclared `Call` with
`lts = [Default, Arg 0]` (both chains end at `Default`) has no
lifetime. -/
theorem call_all_default_no_declaration_none_witness :
    lifetimeF [] anTriv 1 c3ok = LRes.ok none :=
  call_all_default_no_declaration_none [] anTriv 0 c3ok rfl rfl
    (by decide) (by decide)

/-- Claim C4: the constraint walk of the source loops forever on the
cyclic `lts = [Arg 0]`: the bounded chain walk never terminates at any
fuel, and `lifetime` on such a node hangs at every recursion budget —
the cycle is not detected or reported. -/
theorem cyclic_lts_chain_hangs :
    (∀ f, chainStep [Lt.Arg 0] f (Lt.Arg 0) = ChainRes.div) ∧
    (∀ fuel, lifetimeF [] anTriv fuel c4node = LRes.hang) := by
  constructor
  · intro f
    induction f with
    | zero => rfl
    | succ f ih => exact ih
  · intro fuel
    cases fuel with
    | zero => rfl
    | succ n => rfl

/-- Counterexample for C5: on a failing type subtree the builder does
push a node for the `Type` marker (the second node below) and processes
the subtree's events as ordinary events — the subtree is not skipped. -/
theorem type_parse_failure_pushes_node_cex :
    convert_meta_data tpNone [] c5evs =
      BuildRes.ok
        [ { kind := Kind.Item, source := ⟨3, 1⟩, children := [1], end_ := 4 },
          { kind := Kind.Type_, source := ⟨2, 1⟩, parent := some 0, start := 1,
            end_ := 3 } ] := by
  decide

/-- Claim C5 (amended): when the external type parser fails on a
`Type`/`RetType` marker, its error is ignored and no type is attached,
but the builder does not skip the subtree: the `StartNode` falls through
to the ordinary push of a node of the marker kind, and the following
events are processed normally. -/
theorem type_parse_failure_falls_through
    (tp : TypeParser) (i : Nat) (skip : Option Nat) (parents : List Nat)
    (nodes : List Node) (kindName : String) (r : Range) (rest : List REvent)
    (k : Kind) (hk : Kind.new kindName = some k)
    (hm : k = Kind.Type_ ∨ k = Kind.RetType)
    (hf : tp kindName (⟨r, MetaData.StartNode kindName⟩ :: rest) = none)
    (hs : skipActive skip i = false) :
    convertLoop tp (⟨r, MetaData.StartNode kindName⟩ :: rest) i skip parents
        nodes =
      convertLoop tp rest (i + 1) skip (nodes.length :: parents)
        (nodes ++ [pushedNode k i parents]) := by
  simp only [convertLoop, hk, hf]
  rw [if_neg (by simp [hs]), if_pos hm]

/-- Witness for the amended C5: one concrete fall-through step. -/
theorem type_parse_failure_falls_through_witness :
    convertLoop tpNone [⟨⟨1, 1⟩, MetaData.StartNode "Type"⟩] 1 none [0]
        [{ kind := Kind.Item }] =
      convertLoop tpNone [] 2 none [1, 0]
        [{ kind := Kind.Item }, pushedNode Kind.Type_ 1 [0]] :=
  type_parse_failure_falls_through tpNone 1 none [0] [{ kind := Kind.Item }]
    "Type" ⟨1, 1⟩ [] Kind.Type_ rfl (Or.inl rfl) rfl rfl

/-- Counterexample for C6: the accepted stream `c6evs` leaves its second
node unclosed with `start = 1 > 0 = end`, so `start ≤ end` does not hold
for every built node. -/
theorem unclosed_node_start_gt_end_cex :
    convert_meta_data tpNone [] c6evs =
      BuildRes.ok [ { kind := Kind.Item },
        { kind := Kind.Call, parent := some 0, start := 1 } ] ∧
    (([ ({ kind := Kind.Item } : Node),
        { kind := Kind.Call, parent := some 0, start := 1 } ]).all
      fun n => decide (n.start ≤ n.end_)) = false := by
  decide

/-- Claim C6 (amended): on every event stream accepted from an empty
node array, every node that was closed by an `EndNode` (`end ≠ 0`)
satisfies `start ≤ end`; nodes left open keep `end = 0`. -/
theorem closed_nodes_start_le_end (tp : TypeParser) (evs : List REvent)
    (ns : List Node) (h : convert_meta_data tp [] evs = BuildRes.ok ns) :
    startLeEndClosed ns = true := by
  have hA : InvA ns :=
    convertLoop_startLeEnd tp evs 0 none [] [] ns
      (by intro n hn hne; simp at hn) (by intro p hp; simp at hp) h
  unfold startLeEndClosed
  rw [List.all_eq_true]
  intro n hn
  by_cases he : n.end_ = 0
  · simp [he]
  · simp only [Bool.or_eq_true, beq_iff_eq, decide_eq_true_eq]
    exact Or.inr (hA n hn he)

/-- Witness for the amended C6: a single opened-and-closed node. -/
theorem closed_nodes_start_le_end_witness :
    startLeEndClosed [{ kind := Kind.Item, source := ⟨1, 1⟩, end_ := 2 }] =
      true :=
  closed_nodes_start_le_end tpNone c6wevs
    [{ kind := Kind.Item, source := ⟨1, 1⟩, end_ := 2 }] (by decide)

/-- Counterexample for C7: an `Add` with exactly one child of kind
`Compare` does not propagate the child's lifetime — the child is a
skipped kind, so the `Add` gets `none` while the child itself has
`Local 2`. -/
theorem single_child_skip_kind_cex :
    c7root.children = [0] ∧
    c7nodes.get? 0 = some { kind := Kind.Compare, children := [1] } ∧
    lifetimeF c7nodes anTriv 4 { kind := Kind.Compare, children := [1] } =
      LRes.ok (some (Lifetime.Local 2)) ∧
    lifetimeF c7nodes anTriv 5 c7root = LRes.ok none := by
  decide

/-- Claim C7 (amended): an `Add`/`Mul`/`Compare` node with exactly one
child propagates that child's lifetime whenever the `(parent, child)`
pair is a contributing one; with two or more children `has_lifetime` is
false and `lifetime` is `none`. -/
theorem add_mul_compare_passthrough
    (nodes : List Node) (an : ArgNames) (fuel : Nat) (self : Node)
    (hk : self.kind = Kind.Add ∨ self.kind = Kind.Mul ∨
      self.kind = Kind.Compare) :
    (∀ c ch, self.children = [c] → nodes.get? c = some ch →
      childPolicy self.kind ch.kind = ChildPolicy.contribute →
      lifetimeF nodes an (fuel + 1) self = lifetimeF nodes an fuel ch) ∧
    (2 ≤ self.children.length →
      self.has_lifetime = false ∧
        lifetimeF nodes an (fuel + 1) self = LRes.ok none) := by
  constructor
  · intro c ch hc hget hpol
    have hhl : self.has_lifetime = true := by
      unfold Node.has_lifetime
      rcases hk with hk | hk | hk <;> rw [hk] <;> simp [hc]
    have hni : ¬ self.kind = Kind.Item := by
      rcases hk with hk | hk | hk <;> simp [hk]
    have hnc : ¬ (self.kind = Kind.Call ∧ self.lts ≠ []) := by
      rcases hk with hk | hk | hk <;> simp [hk]
    have hnr : ¬ (self.kind = Kind.Item ∧ self.name = some "return") := by
      rcases hk with hk | hk | hk <;> simp [hk]
    have hagg : lifetimeF nodes an (fuel + 1) self =
        aggregate nodes an (lifetimeF nodes an fuel) self := by
      cases hdl : self.declaration with
      | some d => simp [lifetimeF, lifetimeGo, hhl, hdl, hni]
      | none => simp [lifetimeF, lifetimeGo, hhl, hdl, hni, hnc, hnr]
    rw [hagg]
    unfold aggregate
    rw [hc]
    have hget2 : nodes[c]? = some ch := by
      rw [← List.get?_eq_getElem?]
      exact hget
    cases hch : lifetimeF nodes an fuel ch with
    | panicked => simp [contribs, hget2, hpol, hch]
    | hang => simp [contribs, hget2, hpol, hch]
    | ok l? =>
      cases l? with
      | none =>
        simp [contribs, hget2, hpol, hch, prependOpt, pickMin, List.foldl]
      | some l =>
        simp [contribs, hget2, hpol, hch, prependOpt, pickMin, List.foldl,
          lifetimeMinStep]
  · intro h2
    have hhl : self.has_lifetime = false := by
      unfold Node.has_lifetime
      rcases hk with hk | hk | hk <;> rw [hk] <;>
        simp only [beq_eq_false_iff_ne, ne_eq] <;> omega
    exact ⟨hhl, by simp [lifetimeF, lifetimeGo, hhl]⟩

/-- Witness for the amended C7: an `Add` over a single plain `Item`
child has exactly the child's lifetime. -/
theorem add_mul_compare_passthrough_witness :
    lifetimeF c7wnodes anTriv 2 c7wroot =
      lifetimeF c7wnodes anTriv 1 { kind := Kind.Item } :=
  (add_mul_compare_passthrough c7wnodes anTriv 1 c7wroot (Or.inl rfl)).1
    0 { kind := Kind.Item } rfl rfl rfl

/-- Claim C8: in `If { Cond { Item (Local 5) }, TrueBlock { Item return } }`
the condition's `Local` lifetime is skipped and the `If` node's lifetime
is `Return []` (were the `Cond` child contributing, its more-local
`Local 5` would have won the minimum instead). -/
theorem if_cond_skipped_return_scenario :
    lifetimeF c8nodes anTriv 5 { kind := Kind.Item, declaration := some 5 } =
      LRes.ok (some (Lifetime.Local 5)) ∧
    lifetimeF c8nodes anTriv 5 c8root = LRes.ok (some (Lifetime.Return [])) := by
  decide

/-- Counterexample for C9: a `String` event with an unrecognized key
while no node is open is ignored — the builder returns `Ok`, it does not
panic. -/
theorem unknown_key_empty_stack_ok_cex :
    convert_meta_data tpNone [] [⟨⟨0, 1⟩, MetaData.Str "zzz" "v"⟩] =
      BuildRes.ok [] := by
  decide

/-- Claim C9 (amended): with no node open, an `EndNode` event panics, as
does a `String`/`Bool`/`Number` event with a recognized stack-touching
key ("name", "mut", "num"); `grab_level` with a value below 1 returns
the ranged error before touching the stack. -/
theorem empty_stack_recognized_events_panic :
    convert_meta_data tpNone [] [⟨⟨0, 1⟩, MetaData.EndNode "Item"⟩] =
      BuildRes.panicked ∧
    convert_meta_data tpNone [] [⟨⟨0, 1⟩, MetaData.Str "name" "x"⟩] =
      BuildRes.panicked ∧
    convert_meta_data tpNone [] [⟨⟨0, 1⟩, MetaData.BoolD "mut" true⟩] =
      BuildRes.panicked ∧
    convert_meta_data tpNone [] [⟨⟨0, 1⟩, MetaData.F64 "num" 1⟩] =
      BuildRes.panicked ∧
    convert_meta_data tpNone [] [⟨⟨0, 1⟩, MetaData.F64 "grab_level" 0⟩] =
      BuildRes.err ⟨0, 1⟩ "Grab level must be at least 1" := by
  decide

/-- Counterexample for C10: a `Call` whose `lts` contains the
out-of-bounds `Arg 9` does not panic when an earlier chain reaches
`Return` — the walk breaks before dereferencing it and the call returns
`none`. -/
theorem arg_oob_after_return_no_panic_cex :
    Lt.Arg 9 ∈ c10ret.lts ∧ c10ret.lts.length ≤ 9 ∧
    lifetimeF [] anTriv 2 c10ret = LRes.ok none := by
  decide

/-- Claim C10 (amended): when the constraint walk dereferences an
out-of-bounds `Arg (k+1)` (here as the very first chain, before any
`Return` is reached), `lifetime` panics with an index out of bounds
rather than returning `none` or an error. -/
theorem arg_oob_chain_panics :
    ∀ fuel k, lifetimeF [] anTriv (fuel + 1) (c10node k) = LRes.panicked := by
  intro fuel k
  rfl


end Dyon
